import Mathlib

/-!
# HeyNeighbor service: verification of the account-verification state machine
and the item-retirement transaction

Shallow embedding of the HeyNeighbor data service (Calvin CS262 Team G).
The embedded operations are translated from the repository sources:

* `signup`, `login`, `verifyEmailCode`, `resendVerification`, `deleteItem`
  come from the pg-promise service lineage (the file routing
  `/auth/signup`, `/auth/login`, `/auth/verify-code`,
  `/auth/resend-verification` and `DELETE /items/:id`).
* `loginB`, `readConversation` come from `src/heyNeighborService.ts`
  (the bcrypt lineage).
* `VerifyCodeRun` comes from the Azure Functions sample (`VerifyCode.cs`,
  function `VerifyCode.Run`).

Database tables are lists of rows; `NOW()` is an explicit `now : Nat`
parameter (seconds); `INTERVAL '15 minutes'` is `15 * 60`.  SQL equality
against a `NULL` column never matches, which the `Option` comparisons
reproduce.  Randomly generated verification codes and the bcrypt comparison
are passed in as parameters, since the service obtains them from external
collaborators.
-/

/-- One `app_user` row.  Union of the columns the two service lineages read
or write: the verification lineage uses `verification_token`/`is_verified`/
`token_expires_at`; the bcrypt lineage stores `password_hash` (its schema
has no verification columns, so `password_hash` is optional here and unused
rows keep it `none`).  Presentation-only columns (rating, avatar, photo,
created_at) are never consulted by the embedded logic and are omitted. -/
structure User where
  user_id : Nat
  name : String
  email : String
  password_hash : Option String
  verification_token : Option String
  is_verified : Bool
  token_expires_at : Option Nat
  deriving Repr, DecidableEq

/-- One `Item` row (fields of the `Item` interface / schema of the
pg-promise lineage). -/
structure Item where
  item_id : Nat
  name : String
  description : Option String
  image_url : Option String
  category : Option String
  owner_id : Nat
  request_status : String
  deriving Repr, DecidableEq

/-- One `BorrowingRequest` row. -/
structure BorrowingRequest where
  request_id : Nat
  user_id : Nat
  item_id : Nat
  request_datetime : Nat
  deriving Repr, DecidableEq

/-- One `BorrowingHistory` row (`request_id` is its primary key). -/
structure BorrowingHistory where
  request_id : Nat
  return_date : Option Nat
  deriving Repr, DecidableEq

/-- One `Messages` row.  `item_id` is nullable in the schema. -/
structure Message where
  message_id : Nat
  sender_id : Nat
  receiver_id : Nat
  item_id : Option Nat
  content : String
  sent_at : Nat
  deriving Repr, DecidableEq

/-- The relational store: one list per table. -/
structure Db where
  users : List User
  items : List Item
  requests : List BorrowingRequest
  history : List BorrowingHistory
  messages : List Message
  deriving Repr, DecidableEq

/-- Result of `POST /auth/signup` (pg-promise lineage). -/
inductive SignupResult where
  | badRequest
  | domainRejected
  | emailInUse
  | pendingVerification (u : User)
  deriving Repr, DecidableEq

/-- Result of `POST /auth/login` (pg-promise lineage). -/
inductive LoginResult where
  | badRequest
  | invalidCredentials
  | verificationRequired (email : String)
  | success (u : User)
  deriving Repr, DecidableEq

/-- Result of `POST /auth/verify-code` (pg-promise lineage). -/
inductive VerifyResult where
  | badRequest
  | invalidOrExpired
  | alreadyVerified (u : User)
  | verified (u : User)
  deriving Repr, DecidableEq

/-- Result of `POST /auth/resend-verification` (pg-promise lineage). -/
inductive ResendResult where
  | badRequest
  | notFound
  | alreadyVerifiedErr
  | sent
  deriving Repr, DecidableEq

/-- `true` exactly on the two 200-responses of `verifyEmailCode`
(`verified: true` and `alreadyVerified: true`). -/
def VerifyResult.isSuccess : VerifyResult → Bool
  | .alreadyVerified _ => true
  | .verified _ => true
  | _ => false

/-- The HTTP status and error/info message the service writes for each
`verifyEmailCode` outcome, copied from the `res.status(...).json({...})`
calls of the source. -/
def verifyHttpResponse : VerifyResult → Nat × String
  | .badRequest => (400, "Email and verification code are required")
  | .invalidOrExpired => (400, "Invalid or expired verification code")
  | .alreadyVerified _ => (200, "Email already verified")
  | .verified _ => (200, "Email verified successfully!")

/-- `SERIAL` primary-key assignment for `app_user`: the next id is one past
the largest id in the table. -/
def nextUserId (s : List User) : Nat :=
  s.foldr (fun u m => max u.user_id m) 0 + 1

/-- `signup` (pg-promise lineage).  `code` stands for the output of
`generateVerificationCode()`.  Checks required fields and the
`@calvin.edu` domain, rejects duplicate emails with 409, otherwise inserts
an unverified row holding the code and `NOW() + INTERVAL '15 minutes'`. -/
def signup (now : Nat) (code : String) (s : List User) (email name : String) :
    SignupResult × List User :=
  if email = "" ∨ name = "" then (.badRequest, s)
  else if ¬ email.endsWith "@calvin.edu" then (.domainRejected, s)
  else
    match s.find? (fun u => u.email == email) with
    | some _ => (.emailInUse, s)
    | none =>
      let u : User :=
        { user_id := nextUserId s, name := name, email := email,
          password_hash := none, verification_token := some code,
          is_verified := false, token_expires_at := some (now + 15 * 60) }
      (.pendingVerification u, s ++ [u])

/-- `login` (pg-promise lineage): find the row by email; absent → 401
`Invalid email or password`; present but unverified → 403 carrying the
account email; otherwise 200 with the user row.  No password is checked in
this lineage. -/
def login (s : List User) (email : String) : LoginResult :=
  if email = "" then .badRequest
  else
    match s.find? (fun u => u.email == email) with
    | none => .invalidCredentials
    | some u =>
      if ¬ u.is_verified then .verificationRequired u.email
      else .success u

/-- The row filter of the `verifyEmailCode` lookup:
`WHERE email = $[email] AND verification_token = $[code]
AND token_expires_at > NOW()`.  A `NULL` token or expiry fails the
comparison, as in SQL. -/
def verifyMatch (now : Nat) (email code : String) (u : User) : Bool :=
  u.email == email && u.verification_token == some code &&
    (match u.token_expires_at with
     | some t => decide (now < t)
     | none => false)

/-- The validation read of `verifyEmailCode`: `db.oneOrNone(SELECT ...)`. -/
def verifySelect (now : Nat) (s : List User) (email code : String) :
    Option User :=
  s.find? (verifyMatch now email code)

/-- The activation write of `verifyEmailCode`:
`UPDATE app_user SET is_verified = true, verification_token = NULL,
token_expires_at = NULL WHERE user_id = $[user_id]`.  The update is keyed
on `user_id` alone. -/
def markVerified (s : List User) (uid : Nat) : List User :=
  s.map (fun v =>
    if v.user_id == uid then
      { v with is_verified := true, verification_token := none,
               token_expires_at := none }
    else v)

/-- `verifyEmailCode` (pg-promise lineage): validation read, then — when a
row matched and is not yet verified — the `user_id`-keyed activation write.
The returned row is the `RETURNING *` image of the found row. -/
def verifyEmailCode (now : Nat) (s : List User) (email code : String) :
    VerifyResult × List User :=
  if email = "" ∨ code = "" then (.badRequest, s)
  else
    match verifySelect now s email code with
    | none => (.invalidOrExpired, s)
    | some u =>
      if u.is_verified then (.alreadyVerified u, s)
      else
        (.verified { u with is_verified := true, verification_token := none,
                            token_expires_at := none },
         markVerified s u.user_id)

/-- `resendVerification` (pg-promise lineage).  `newCode` stands for the
output of `generateVerificationCode()`.  Absent email → 404; already
verified → 400; otherwise overwrite the stored code and expiry
(`NOW() + INTERVAL '15 minutes'`) on the row keyed by `user_id`. -/
def resendVerification (now : Nat) (newCode : String) (s : List User)
    (email : String) : ResendResult × List User :=
  if email = "" then (.badRequest, s)
  else
    match s.find? (fun u => u.email == email) with
    | none => (.notFound, s)
    | some u =>
      if u.is_verified then (.alreadyVerifiedErr, s)
      else
        (.sent,
         s.map (fun v =>
           if v.user_id == u.user_id then
             { v with verification_token := some newCode,
                      token_expires_at := some (now + 15 * 60) }
           else v))

/-- JS `String.prototype.toLowerCase()` on the email, modeled
character-wise (`String.toLower` itself is opaque to kernel reduction). -/
def jsToLower (s : String) : String := ⟨s.data.map Char.toLower⟩

/-- C# `string.IsNullOrWhiteSpace`, modeled character-wise. -/
def isNullOrWhiteSpace (s : String) : Bool :=
  s.data.all (fun c => c.isWhitespace)

/-- Result of `POST /auth/login` in `src/heyNeighborService.ts` (bcrypt
lineage).  The success payload carries the columns its `SELECT` returns
minus `password_hash`; `is_verified` is not among them. -/
inductive LoginBResult where
  | badRequest
  | invalidCredentials
  | serverError
  | success (user_id : Nat) (email name : String)
  deriving Repr, DecidableEq

/-- `login` of `src/heyNeighborService.ts`: find the row by the lowercased
email, then compare the submitted password against `password_hash` with
`bcrypt.compare` (passed in as the opaque `compare`).  A row with no stored
hash makes `bcrypt.compare` reject, which the error handler turns into a
500.  No verification state is consulted anywhere. -/
def loginB (compare : String → String → Bool) (s : List User)
    (email password : String) : LoginBResult :=
  if email = "" ∨ password = "" then .badRequest
  else
    match s.find? (fun u => u.email == jsToLower email) with
    | none => .invalidCredentials
    | some u =>
      match u.password_hash with
      | none => .serverError
      | some h =>
        if compare password h then .success u.user_id u.email u.name
        else .invalidCredentials

/-- Result of `DELETE /items/:id` (pg-promise lineage). -/
inductive DeleteResult where
  | deleted
  | notFound
  deriving Repr, DecidableEq

/-- `deleteItem` (pg-promise lineage), the body of `db.tx`: collect the
`request_id`s referencing the item, delete their `BorrowingHistory` rows
(statement issued only when some request exists), delete the
`BorrowingRequest` rows, delete the `Messages` rows whose `item_id` equals
the id (a `NULL` `item_id` never matches), then delete the `Item` row.  If
that terminal delete affected zero rows the transaction throws
`Item not found` and rolls back, so the endpoint answers 404 with the store
unchanged. -/
def deleteItem (db : Db) (id : Nat) : DeleteResult × Db :=
  let requests := db.requests.filter (fun r => r.item_id == id)
  let requestIds := requests.map (fun r => r.request_id)
  let history' :=
    if requests.length > 0 then
      db.history.filter (fun h => ! requestIds.contains h.request_id)
    else db.history
  let requests' := db.requests.filter (fun r => ! (r.item_id == id))
  let messages' := db.messages.filter (fun m => ! (m.item_id == some id))
  let deletedCount := db.items.countP (fun it => it.item_id == id)
  let items' := db.items.filter (fun it => ! (it.item_id == id))
  if deletedCount == 0 then (.notFound, db)
  else
    (.deleted,
     { db with items := items', requests := requests',
               history := history', messages := messages' })

/-- The `WHERE` clause of `readConversation`:
`(sender_id = $1 AND receiver_id = $2) OR (sender_id = $2 AND receiver_id = $1)`. -/
def conversationFilter (u1 u2 : Nat) (m : Message) : Bool :=
  (m.sender_id == u1 && m.receiver_id == u2) ||
    (m.sender_id == u2 && m.receiver_id == u1)

/-- Insertion step of the `ORDER BY m.sent_at ASC` sort. -/
def insertBySentAt (m : Message) : List Message → List Message
  | [] => [m]
  | x :: xs =>
    if m.sent_at ≤ x.sent_at then m :: x :: xs else x :: insertBySentAt m xs

/-- `ORDER BY m.sent_at ASC` as a stable insertion sort. -/
def sortBySentAt : List Message → List Message
  | [] => []
  | x :: xs => insertBySentAt x (sortBySentAt xs)

/-- `readConversation` of `src/heyNeighborService.ts`: both query
parameters are required (missing → 400, modeled as `none`); otherwise the
messages between the two users, ordered by `sent_at` ascending.  The
`JOIN` only decorates each row with sender display fields, so the rows
themselves are returned. -/
def readConversation (msgs : List Message) (u1 u2 : Option Nat) :
    Option (List Message) :=
  match u1, u2 with
  | some a, some b => some (sortBySentAt (msgs.filter (conversationFilter a b)))
  | _, _ => none

/-- One row of the `VerificationCode` table used by the Azure Functions
sample (`VerifyCode.cs`). -/
structure VerificationCodeRow where
  email : String
  code : String
  expires_at : Nat
  verified : Bool
  created_at : Nat
  deriving Repr, DecidableEq

/-- Result of the Azure Functions `VerifyCode.Run`: a `BadRequest` carries
the message object the function builds. -/
inductive AzureVerifyResult where
  | badRequestMsg (message : String)
  | okVerified
  deriving Repr, DecidableEq

/-- Insertion step of `ORDER BY created_at DESC`. -/
def insertByCreatedDesc (r : VerificationCodeRow) :
    List VerificationCodeRow → List VerificationCodeRow
  | [] => [r]
  | x :: xs =>
    if x.created_at ≤ r.created_at then r :: x :: xs
    else x :: insertByCreatedDesc r xs

/-- `ORDER BY created_at DESC` as a stable insertion sort. -/
def sortByCreatedDesc : List VerificationCodeRow → List VerificationCodeRow
  | [] => []
  | x :: xs => insertByCreatedDesc x (sortByCreatedDesc xs)

/-- `VerifyCode.Run` from the Azure Functions sample: read the newest
`VerificationCode` row for the email; no row, an expired row
(`DateTime.UtcNow > expires_at`), and a mismatched code each return their
own distinct `BadRequest` message; on a match every row for the email is
marked verified. -/
def VerifyCodeRun (utcNow : Nat) (table : List VerificationCodeRow)
    (email code : String) : AzureVerifyResult × List VerificationCodeRow :=
  if isNullOrWhiteSpace email || isNullOrWhiteSpace code then
    (.badRequestMsg "Email and code are required", table)
  else
    match sortByCreatedDesc (table.filter (fun r => r.email == email)) with
    | [] => (.badRequestMsg "No verification code found for this email", table)
    | r :: _ =>
      if r.expires_at < utcNow then
        (.badRequestMsg "Verification code has expired", table)
      else if ! (code == r.code) then
        (.badRequestMsg "Invalid verification code", table)
      else
        (.okVerified,
         table.map (fun v =>
           if v.email == email then { v with verified := true } else v))

/-- The §3 invariant, phrased executably: every verified row has cleared
its code and expiry. -/
def verifiedInv (s : List User) : Bool :=
  s.all (fun u =>
    ! u.is_verified || (u.verification_token == none &&
      u.token_expires_at == none))

/-- Account states reachable through the auth write paths, starting from
the empty table.  `login` is read-only and `verifyEmailCode`,
`resendVerification` and `signup` are the only writers of the
verification columns, so these are the reachable `app_user` states of the
core.  The generated codes and clock readings are arbitrary. -/
inductive Reachable : List User → Prop where
  | empty : Reachable []
  | signup (now : Nat) (code email name : String) {s : List User} :
      Reachable s → Reachable (signup now code s email name).2
  | verify (now : Nat) (email code : String) {s : List User} :
      Reachable s → Reachable (verifyEmailCode now s email code).2
  | resend (now : Nat) (newCode email : String) {s : List User} :
      Reachable s → Reachable (resendVerification now newCode s email).2

/-! ## Auxiliary facts -/

theorem length_filter_not_add_countP {α : Type} (p : α → Bool) (l : List α) :
    (l.filter (fun a => ! p a)).length + l.countP p = l.length := by
  induction l with
  | nil => rfl
  | cons x xs ih =>
    cases hx : p x <;> simp [List.filter_cons, List.countP_cons, hx] <;> omega

theorem deleteItem_of_found (db : Db) (id : Nat)
    (h : ∃ it ∈ db.items, it.item_id = id) :
    deleteItem db id =
      (.deleted,
       { db with
         items := db.items.filter (fun it => ! (it.item_id == id)),
         requests := db.requests.filter (fun r => ! (r.item_id == id)),
         history := db.history.filter (fun hr =>
           ! ((db.requests.filter (fun r => r.item_id == id)).map
               (fun r => r.request_id)).contains hr.request_id),
         messages := db.messages.filter (fun m => ! (m.item_id == some id)) }) := by
  obtain ⟨it, hmem, hid⟩ := h
  have hcount : db.items.countP (fun it => it.item_id == id) ≠ 0 := by
    intro h0
    rw [List.countP_eq_zero] at h0
    exact h0 it hmem (by simp [hid])
  unfold deleteItem
  rw [if_neg (by simpa using hcount)]
  by_cases hreq : (db.requests.filter (fun r => r.item_id == id)).length > 0
  · rw [if_pos hreq]
  · rw [if_neg hreq]
    have hnil : db.requests.filter (fun r => r.item_id == id) = [] := by
      have : (db.requests.filter (fun r => r.item_id == id)).length = 0 := by omega
      exact List.eq_nil_of_length_eq_zero this
    rw [hnil]
    simp

theorem deleteItem_of_absent (db : Db) (id : Nat)
    (h : ∀ it ∈ db.items, it.item_id ≠ id) :
    deleteItem db id = (.notFound, db) := by
  have hcount : db.items.countP (fun it => it.item_id == id) = 0 := by
    rw [List.countP_eq_zero]
    intro a ha
    simpa using h a ha
  unfold deleteItem
  rw [if_pos (by simpa using hcount)]

/-! ## Concrete sample data for witnesses and counterexamples -/

/-- An unverified account holding code `111111` that expires at time 900. -/
def aliceUnverified : User :=
  { user_id := 1, name := "Alice", email := "alice@calvin.edu",
    password_hash := none, verification_token := some "111111",
    is_verified := false, token_expires_at := some 900 }

/-- A listed item owned by user 1. -/
def lawnmower : Item :=
  { item_id := 1, name := "Lawn Mower", description := none,
    image_url := none, category := some "Tools", owner_id := 1,
    request_status := "available" }

/-- A small store: one item with one request (with history) and one
related message, plus one unrelated request/history pair and one
unrelated message. -/
def sampleDb : Db :=
  { users := [aliceUnverified],
    items := [lawnmower],
    requests := [{ request_id := 7, user_id := 2, item_id := 1,
                   request_datetime := 0 },
                 { request_id := 8, user_id := 3, item_id := 2,
                   request_datetime := 0 }],
    history := [{ request_id := 7, return_date := none },
                { request_id := 8, return_date := none }],
    messages := [{ message_id := 1, sender_id := 2, receiver_id := 1,
                   item_id := some 1, content := "hi", sent_at := 3 },
                 { message_id := 2, sender_id := 2, receiver_id := 1,
                   item_id := none, content := "later", sent_at := 4 }] }

/-! ## Claim theorems -/

/-- C2: `retireItem` on an id with no `Item` row returns not-found with
every table exactly as before the call (the transaction throws at the
terminal delete, so none of the dependent deletions of steps 1-4 are
observable), and a second retirement of an existing item directly after a
successful first one returns not-found while leaving the post-retirement
state untouched. -/
theorem retireItem_notFound_rollback_idempotent (db : Db) (id : Nat) :
    ((∀ it ∈ db.items, it.item_id ≠ id) →
      deleteItem db id = (.notFound, db)) ∧
    ((∃ it ∈ db.items, it.item_id = id) →
      (deleteItem db id).1 = .deleted ∧
      deleteItem (deleteItem db id).2 id =
        (.notFound, (deleteItem db id).2)) := by
  constructor
  · exact deleteItem_of_absent db id
  · intro h
    rw [deleteItem_of_found db id h]
    refine ⟨rfl, ?_⟩
    apply deleteItem_of_absent
    intro it hit
    simp only [List.mem_filter, Bool.not_eq_true', beq_eq_false_iff_ne,
      ne_eq] at hit
    exact hit.2

/-- Witness for C2: in `sampleDb`, retiring the absent item 5 is a
rollback no-op, and retiring item 1 succeeds once and is not-found on the
immediate retry. -/
theorem retireItem_notFound_rollback_idempotent_witness :
    deleteItem sampleDb 5 = (.notFound, sampleDb) ∧
    (deleteItem sampleDb 1).1 = .deleted ∧
    deleteItem (deleteItem sampleDb 1).2 1 =
      (.notFound, (deleteItem sampleDb 1).2) :=
  ⟨(retireItem_notFound_rollback_idempotent sampleDb 5).1 (by decide),
   ((retireItem_notFound_rollback_idempotent sampleDb 1).2 (by decide)).1,
   ((retireItem_notFound_rollback_idempotent sampleDb 1).2 (by decide)).2⟩

/-- C3: retiring an existing item deletes exactly the history rows of the
requests that reference the item, exactly those request rows, exactly the
messages referencing the item, and the item row, in one state transition
(the embedded transaction performs the four deletes in the leaf-to-root
source order history, requests, messages, item), and leaves every other
row — including the whole `app_user` table — untouched; the removal counts
equal the row counts referencing the item. -/
theorem retireItem_cascades_exactly (db : Db) (id : Nat)
    (h : ∃ it ∈ db.items, it.item_id = id) :
    (deleteItem db id).1 = .deleted ∧
    (deleteItem db id).2.history =
      db.history.filter (fun hr =>
        ! ((db.requests.filter (fun r => r.item_id == id)).map
            (fun r => r.request_id)).contains hr.request_id) ∧
    (deleteItem db id).2.requests =
      db.requests.filter (fun r => ! (r.item_id == id)) ∧
    (deleteItem db id).2.messages =
      db.messages.filter (fun m => ! (m.item_id == some id)) ∧
    (deleteItem db id).2.items =
      db.items.filter (fun it => ! (it.item_id == id)) ∧
    (deleteItem db id).2.users = db.users ∧
    (deleteItem db id).2.requests.length +
      db.requests.countP (fun r => r.item_id == id) = db.requests.length ∧
    (deleteItem db id).2.messages.length +
      db.messages.countP (fun m => m.item_id == some id) =
        db.messages.length ∧
    (deleteItem db id).2.items.length +
      db.items.countP (fun it => it.item_id == id) = db.items.length ∧
    (deleteItem db id).2.history.length +
      db.history.countP (fun hr =>
        ((db.requests.filter (fun r => r.item_id == id)).map
            (fun r => r.request_id)).contains hr.request_id) =
        db.history.length := by
  rw [deleteItem_of_found db id h]
  exact ⟨rfl, rfl, rfl, rfl, rfl, rfl,
    length_filter_not_add_countP _ _, length_filter_not_add_countP _ _,
    length_filter_not_add_countP _ _, length_filter_not_add_countP _ _⟩

/-- Witness for C3: retiring item 1 of `sampleDb` removes exactly the
request rows that reference it. -/
theorem retireItem_cascades_exactly_witness :
    (deleteItem sampleDb 1).2.requests =
      sampleDb.requests.filter (fun r => ! (r.item_id == 1)) :=
  (retireItem_cascades_exactly sampleDb 1 ⟨lawnmower, by decide, rfl⟩).2.2.1

/-- C10: the conversation read is symmetric in its two user ids — for
every message store, `readConversation(u1, u2)` returns exactly the rows
of `readConversation(u2, u1)`, in the same `sent_at`-ascending order
(missing-parameter calls agree as well, both rejected). -/
theorem readConversation_symmetric (msgs : List Message)
    (u1 u2 : Option Nat) :
    readConversation msgs u1 u2 = readConversation msgs u2 u1 := by
  match u1, u2 with
  | none, none => rfl
  | none, some b => rfl
  | some a, none => rfl
  | some a, some b =>
    have hp : ∀ m ∈ msgs, conversationFilter a b m = conversationFilter b a m := by
      intro m _
      unfold conversationFilter
      exact Bool.or_comm _ _
    show some (sortBySentAt (msgs.filter (conversationFilter a b))) =
      some (sortBySentAt (msgs.filter (conversationFilter b a)))
    rw [List.filter_congr hp]

/-! ## The verification-state invariant over reachable stores -/

/-- Primary-key property of `app_user.user_id`. -/
def UidUnique (s : List User) : Prop :=
  ∀ v ∈ s, ∀ w ∈ s, v.user_id = w.user_id → v = w

theorem verifiedInv_iff (s : List User) :
    verifiedInv s = true ↔
      ∀ u ∈ s, u.is_verified = true →
        u.verification_token = none ∧ u.token_expires_at = none := by
  unfold verifiedInv
  rw [List.all_eq_true]
  apply forall_congr'
  intro u
  apply imp_congr_right
  intro _
  cases hb : u.is_verified <;> simp [hb]

theorem le_foldr_max (s : List User) :
    ∀ u ∈ s, u.user_id ≤ s.foldr (fun u m => max u.user_id m) 0 := by
  induction s with
  | nil => intro u hu; cases hu
  | cons x xs ih =>
    intro u hu
    rcases List.mem_cons.mp hu with rfl | hmem
    · exact Nat.le_max_left _ _
    · exact le_trans (ih u hmem) (Nat.le_max_right _ _)

theorem user_id_lt_nextUserId (s : List User) (u : User) (hu : u ∈ s) :
    u.user_id < nextUserId s := by
  have := le_foldr_max s u hu
  unfold nextUserId
  omega

theorem map_preserves_uidUnique (f : User → User)
    (hid : ∀ v, (f v).user_id = v.user_id) (s : List User)
    (huid : UidUnique s) : UidUnique (s.map f) := by
  intro v hv w hw heq
  rcases List.mem_map.mp hv with ⟨a, ha, rfl⟩
  rcases List.mem_map.mp hw with ⟨b, hb, rfl⟩
  rw [hid a, hid b] at heq
  rw [huid a ha b hb heq]

theorem signup_preserves (now : Nat) (code email name : String)
    (s : List User) (hinv : verifiedInv s = true) (huid : UidUnique s) :
    verifiedInv (signup now code s email name).2 = true ∧
      UidUnique (signup now code s email name).2 := by
  unfold signup
  by_cases h1 : email = "" ∨ name = ""
  · rw [if_pos h1]; exact ⟨hinv, huid⟩
  rw [if_neg h1]
  by_cases h2 : ¬ email.endsWith "@calvin.edu"
  · rw [if_pos h2]; exact ⟨hinv, huid⟩
  rw [if_neg h2]
  cases hfind : s.find? (fun u => u.email == email) with
  | some u => exact ⟨hinv, huid⟩
  | none =>
    constructor
    · rw [verifiedInv_iff]
      intro u hu hv
      rcases List.mem_append.mp hu with hmem | hnew
      · exact (verifiedInv_iff s).mp hinv u hmem hv
      · rcases List.mem_singleton.mp hnew with rfl
        cases hv
    · intro v hv w hw heq
      rcases List.mem_append.mp hv with hv1 | hv2 <;>
        rcases List.mem_append.mp hw with hw1 | hw2
      · exact huid v hv1 w hw1 heq
      · rcases List.mem_singleton.mp hw2 with rfl
        have := user_id_lt_nextUserId s v hv1
        simp only at heq
        omega
      · rcases List.mem_singleton.mp hv2 with rfl
        have := user_id_lt_nextUserId s w hw1
        simp only at heq
        omega
      · rw [List.mem_singleton.mp hv2, List.mem_singleton.mp hw2]

theorem markVerified_preserves_inv (s : List User) (uid : Nat)
    (hinv : verifiedInv s = true) :
    verifiedInv (markVerified s uid) = true := by
  rw [verifiedInv_iff]
  intro u hu hv
  unfold markVerified at hu
  rcases List.mem_map.mp hu with ⟨a, ha, hfa⟩
  by_cases hid : (a.user_id == uid) = true
  · rw [if_pos hid] at hfa
    subst hfa
    exact ⟨rfl, rfl⟩
  · rw [if_neg hid] at hfa
    subst hfa
    exact (verifiedInv_iff s).mp hinv a ha hv

theorem verify_preserves (now : Nat) (email code : String) (s : List User)
    (hinv : verifiedInv s = true) (huid : UidUnique s) :
    verifiedInv (verifyEmailCode now s email code).2 = true ∧
      UidUnique (verifyEmailCode now s email code).2 := by
  unfold verifyEmailCode
  by_cases h1 : email = "" ∨ code = ""
  · rw [if_pos h1]; exact ⟨hinv, huid⟩
  rw [if_neg h1]
  cases hfind : verifySelect now s email code with
  | none => exact ⟨hinv, huid⟩
  | some u =>
    dsimp only
    by_cases hv : u.is_verified
    · rw [if_pos hv]; exact ⟨hinv, huid⟩
    · rw [if_neg hv]
      refine ⟨markVerified_preserves_inv s u.user_id hinv, ?_⟩
      exact map_preserves_uidUnique _ (by
        intro v
        by_cases hid : v.user_id == u.user_id <;> simp [hid]) s huid

theorem resend_preserves (now : Nat) (newCode email : String)
    (s : List User) (hinv : verifiedInv s = true) (huid : UidUnique s) :
    verifiedInv (resendVerification now newCode s email).2 = true ∧
      UidUnique (resendVerification now newCode s email).2 := by
  unfold resendVerification
  by_cases h1 : email = ""
  · rw [if_pos h1]; exact ⟨hinv, huid⟩
  rw [if_neg h1]
  cases hfind : s.find? (fun u => u.email == email) with
  | none => exact ⟨hinv, huid⟩
  | some u =>
    dsimp only
    by_cases hv : u.is_verified
    · rw [if_pos hv]; exact ⟨hinv, huid⟩
    · rw [if_neg hv]
      have humem : u ∈ s := List.mem_of_find?_eq_some hfind
      constructor
      · rw [verifiedInv_iff]
        intro w hw hwv
        rcases List.mem_map.mp hw with ⟨a, ha, hfa⟩
        by_cases hid : (a.user_id == u.user_id) = true
        · rw [if_pos hid] at hfa
          have hau : a = u := huid a ha u humem (by simpa using hid)
          subst hfa
          have hav : a.is_verified = true := hwv
          rw [hau] at hav
          exact absurd hav hv
        · rw [if_neg hid] at hfa
          subst hfa
          exact (verifiedInv_iff s).mp hinv a ha hwv
      · exact map_preserves_uidUnique _ (by
          intro v
          by_cases hid : v.user_id == u.user_id <;> simp [hid]) s huid

theorem reachable_inv_aux (s : List User) (h : Reachable s) :
    verifiedInv s = true ∧ UidUnique s := by
  induction h with
  | empty => exact ⟨rfl, by intro v hv; cases hv⟩
  | signup now code email name hs ih =>
    exact signup_preserves now code email name _ ih.1 ih.2
  | verify now email code hs ih =>
    exact verify_preserves now email code _ ih.1 ih.2
  | resend now newCode email hs ih =>
    exact resend_preserves now newCode email _ ih.1 ih.2

/-- C7: in every account store reachable through the core write paths
(`signup`, `verifyEmailCode`, `resendVerification`; `login` is read-only),
a verified row has no stored code and no stored expiry: signup inserts the
account unverified with a fresh code, activation clears both columns in
the same update that sets `is_verified`, and resend writes a code only to
an account it found unverified. -/
theorem reachable_verified_invariant (s : List User) (h : Reachable s) :
    verifiedInv s = true :=
  (reachable_inv_aux s h).1

/-- Witness for C7: the invariant holds in the store produced by a signup
followed by an activation of the issued code. -/
theorem reachable_verified_invariant_witness :
    verifiedInv
      (verifyEmailCode 10
        (signup 0 "123456" [] "alice@calvin.edu" "Alice").2
        "alice@calvin.edu" "123456").2 = true :=
  reachable_verified_invariant _
    (Reachable.verify 10 "alice@calvin.edu" "123456"
      (Reachable.signup 0 "123456" "alice@calvin.edu" "Alice"
        Reachable.empty))

/-- C8: with a well-formed request, if every row for the email stores
`token_expires_at` equal to the current server clock, activation fails
with the invalid-or-expired error — the `token_expires_at > NOW()`
comparison makes the boundary instant expired — and conversely any
successful activation response requires a stored row whose expiry is
strictly after the clock (and whose code matches). -/
theorem verify_expiry_boundary (now : Nat) (s : List User)
    (email code : String) (hemail : email ≠ "") (hcode : code ≠ "") :
    ((∀ u ∈ s, u.email = email → u.token_expires_at = some now) →
      (verifyEmailCode now s email code).1 = .invalidOrExpired) ∧
    ((verifyEmailCode now s email code).1.isSuccess = true →
      ∃ u ∈ s, u.email = email ∧ u.verification_token = some code ∧
        ∃ t, u.token_expires_at = some t ∧ now < t) := by
  have hguard : ¬ (email = "" ∨ code = "") := by
    rintro (h | h)
    exacts [hemail h, hcode h]
  constructor
  · intro hall
    have hnone : verifySelect now s email code = none := by
      unfold verifySelect
      rw [List.find?_eq_none]
      intro u hu
      unfold verifyMatch
      by_cases he : u.email = email
      · rw [hall u hu he]
        simp
      · simp [he]
    unfold verifyEmailCode
    rw [if_neg hguard, hnone]
  · intro hsucc
    unfold verifyEmailCode at hsucc
    rw [if_neg hguard] at hsucc
    cases hfind : verifySelect now s email code with
    | none =>
      rw [hfind] at hsucc
      exact absurd hsucc (by simp [VerifyResult.isSuccess])
    | some u =>
      rw [hfind] at hsucc
      have hfind' : s.find? (verifyMatch now email code) = some u := hfind
      have hmem : u ∈ s := List.mem_of_find?_eq_some hfind'
      have hmatch : verifyMatch now email code u = true :=
        List.find?_some hfind'
      simp only [verifyMatch, Bool.and_eq_true, beq_iff_eq] at hmatch
      obtain ⟨⟨he, htok⟩, hexp⟩ := hmatch
      cases ht : u.token_expires_at with
      | none => rw [ht] at hexp; cases hexp
      | some t =>
        rw [ht] at hexp
        exact ⟨u, hmem, he, htok, t, ht, by simpa using hexp⟩

/-- Witness for C8: submitting the correct code exactly at the stored
expiry instant (clock = 900) is rejected as invalid-or-expired. -/
theorem verify_expiry_boundary_witness :
    (verifyEmailCode 900 [aliceUnverified] "alice@calvin.edu" "111111").1 =
      .invalidOrExpired :=
  (verify_expiry_boundary 900 [aliceUnverified] "alice@calvin.edu" "111111"
    (by decide) (by decide)).1 (by decide)

/-- C4: for an unverified account under the unique-email constraint,
after a resend stores a new code `c2`, activating with any different code
`c1` fails with invalid-or-expired at every later clock reading — in
particular even before `c1`'s original expiry — because the resend
overwrote the only stored code for the account. -/
theorem resend_supersedes_previous_code (now now2 : Nat) (s : List User)
    (email c1 c2 : String) (u : User)
    (huniq : ∀ v ∈ s, v.email = email → v = u)
    (hfind : s.find? (fun v => v.email == email) = some u)
    (hunv : u.is_verified = false)
    (hne : c1 ≠ c2) (hemail : email ≠ "") (hc1 : c1 ≠ "") :
    (resendVerification now c2 s email).1 = .sent ∧
    (verifyEmailCode now2 (resendVerification now c2 s email).2 email c1).1 =
      .invalidOrExpired := by
  have hresend : resendVerification now c2 s email =
      (.sent, s.map (fun v =>
        if v.user_id == u.user_id then
          { v with verification_token := some c2,
                   token_expires_at := some (now + 15 * 60) }
        else v)) := by
    unfold resendVerification
    rw [if_neg hemail, hfind]
    dsimp only
    rw [if_neg (by simp [hunv])]
  refine ⟨by rw [hresend], ?_⟩
  rw [hresend]
  have hguard : ¬ (email = "" ∨ c1 = "") := by
    rintro (h | h)
    exacts [hemail h, hc1 h]
  have hnone : verifySelect now2
      (s.map (fun v =>
        if v.user_id == u.user_id then
          { v with verification_token := some c2,
                   token_expires_at := some (now + 15 * 60) }
        else v)) email c1 = none := by
    unfold verifySelect
    rw [List.find?_eq_none]
    intro w hw
    rcases List.mem_map.mp hw with ⟨v, hv, hfv⟩
    by_cases hvid : (v.user_id == u.user_id) = true
    · rw [if_pos hvid] at hfv
      subst hfv
      simp only [verifyMatch, Bool.and_eq_true, beq_iff_eq]
      rintro ⟨⟨-, htok⟩, -⟩
      have htok' : some c2 = some c1 := htok
      injection htok' with hx
      exact hne hx.symm
    · rw [if_neg hvid] at hfv
      subst hfv
      simp only [verifyMatch, Bool.and_eq_true, beq_iff_eq]
      rintro ⟨⟨hve, -⟩, -⟩
      have hvu : v = u := huniq v hv hve
      rw [hvu] at hvid
      exact hvid (by simp)
  unfold verifyEmailCode
  rw [if_neg hguard, hnone]

/-- Witness for C4: after resending code `222222` to the unverified
account, the previously issued `111111` is rejected at clock 20, well
before its original expiry 900. -/
theorem resend_supersedes_previous_code_witness :
    (resendVerification 10 "222222" [aliceUnverified] "alice@calvin.edu").1 =
      .sent ∧
    (verifyEmailCode 20
      (resendVerification 10 "222222" [aliceUnverified]
        "alice@calvin.edu").2
      "alice@calvin.edu" "111111").1 = .invalidOrExpired :=
  resend_supersedes_previous_code 10 20 [aliceUnverified] "alice@calvin.edu"
    "111111" "222222" aliceUnverified (by decide) (by decide) rfl
    (by decide) (by decide) (by decide)

/-! ## Divergences between the spec and the code -/

/-- The row produced by activating `aliceUnverified`. -/
def aliceVerified : User :=
  { aliceUnverified with is_verified := true, verification_token := none,
                         token_expires_at := none }

/-- The row produced by resending code `222222` to `aliceUnverified` at
clock 10. -/
def aliceResent : User :=
  { aliceUnverified with verification_token := some "222222",
                         token_expires_at := some (10 + 15 * 60) }

/-- An account with no stored code. -/
def aliceNoCode : User :=
  { aliceUnverified with verification_token := none,
                         token_expires_at := none }

/-- C1 evaluated at its failing input: activating `aliceUnverified`
succeeds and yields the verified row with both columns cleared, but the
immediate re-activation with the same email and code — now against an
already-verified account — answers invalid-or-expired instead of the
already-verified short-circuit, because the lookup filters on
`verification_token = code AND token_expires_at > NOW()` before the
`is_verified` test ever runs, and activation nulled both columns. -/
theorem verify_already_verified_unreachable :
    (verifyEmailCode 0 [aliceUnverified] "alice@calvin.edu" "111111").1 =
      VerifyResult.verified aliceVerified ∧
    (verifyEmailCode 0 [aliceUnverified] "alice@calvin.edu" "111111").2 =
      [aliceVerified] ∧
    aliceVerified.is_verified = true ∧
    verifyEmailCode 0 [aliceVerified] "alice@calvin.edu" "111111" =
      (.invalidOrExpired, [aliceVerified]) := by
  decide

/-- C5 evaluated at its failing input: the activation write is a separate
`user_id`-keyed update after the validation read, not a conditional
update keyed on (email, code, not-expired).  In the interleaving
validate(old code) → resend(new code) → write, the validation passes, the
resend succeeds and supersedes the code, and the write still marks the
account verified — both operations succeed. -/
theorem activation_write_not_conditional :
    verifySelect 0 [aliceUnverified] "alice@calvin.edu" "111111" =
      some aliceUnverified ∧
    resendVerification 10 "222222" [aliceUnverified] "alice@calvin.edu" =
      (.sent, [aliceResent]) ∧
    markVerified [aliceResent] aliceUnverified.user_id = [aliceVerified] ∧
    aliceVerified.is_verified = true := by
  decide

/-- An unverified account carrying a bcrypt hash. -/
def bobUnverified : User :=
  { user_id := 2, name := "Bob", email := "bob@calvin.edu",
    password_hash := some "hash", verification_token := none,
    is_verified := false, token_expires_at := none }

/-- Counterexample to C6: in the bcrypt lineage (`heyNeighborService.ts`),
login of an existing but unverified account with a matching credential
returns success, not the verification-required error the claim demands of
every lineage — that login never consults verification state. -/
theorem login_verified_gate_counterexample :
    bobUnverified.is_verified = false ∧
    loginB (fun p h => p == h) [bobUnverified] "bob@calvin.edu" "hash" =
      .success 2 "bob@calvin.edu" "Bob" := by
  decide

/-- C6 (amended): the verified-gate holds in the pg-promise lineage —
absent account gives invalid-credentials, an existing unverified account
gives verification-required carrying the account email, and an
account-returning success occurs exactly for verified accounts — but not
in the bcrypt lineage: its login never reads verification state (its
result is unchanged under any reassignment of `is_verified` across the
store), succeeding whenever the account exists and the credential
matches. -/
theorem login_verified_gate_per_lineage :
    (∀ (s : List User) (email : String), email ≠ "" →
      (s.find? (fun v => v.email == email) = none →
        login s email = .invalidCredentials) ∧
      (∀ u, s.find? (fun v => v.email == email) = some u →
        u.is_verified = false →
          login s email = .verificationRequired u.email) ∧
      (∀ u, s.find? (fun v => v.email == email) = some u →
        u.is_verified = true → login s email = .success u)) ∧
    (∀ (compare : String → String → Bool) (b : User → Bool)
      (s : List User) (email password : String),
      loginB compare
        (s.map (fun v => { v with is_verified := b v })) email password =
        loginB compare s email password) := by
  constructor
  · intro s email hemail
    refine ⟨?_, ?_, ?_⟩
    · intro hnone
      unfold login
      rw [if_neg hemail, hnone]
    · intro u hu huv
      unfold login
      rw [if_neg hemail, hu]
      dsimp only
      rw [if_pos (by simp [huv])]
    · intro u hu huv
      unfold login
      rw [if_neg hemail, hu]
      dsimp only
      rw [if_neg (by simp [huv])]
  · intro compare b s email password
    unfold loginB
    by_cases hg : email = "" ∨ password = ""
    · rw [if_pos hg, if_pos hg]
    rw [if_neg hg, if_neg hg, List.find?_map]
    have hpf : ((fun u : User => u.email == jsToLower email) ∘
        (fun v : User => { v with is_verified := b v })) =
        (fun v : User => v.email == jsToLower email) := rfl
    rw [hpf]
    cases hf : s.find? (fun v : User => v.email == jsToLower email) with
    | none => rfl
    | some u => rfl

/-- Witness for C6 (amended): in the pg-promise lineage the unverified
account is stopped with verification-required carrying its email. -/
theorem login_verified_gate_per_lineage_witness :
    login [aliceUnverified] "alice@calvin.edu" =
      .verificationRequired "alice@calvin.edu" :=
  (login_verified_gate_per_lineage.1 [aliceUnverified] "alice@calvin.edu"
    (by decide)).2.1 aliceUnverified (by decide) rfl

/-- A stored Azure `VerificationCode` row. -/
def azureRow : VerificationCodeRow :=
  { email := "alice@calvin.edu", code := "111111", expires_at := 100,
    verified := false, created_at := 5 }

/-- Counterexample to C9: the Azure Functions `VerifyCode.Run` answers
the expired-code, mismatched-code and no-code failures with three
pairwise distinct messages, so the error payload does reveal which
condition occurred. -/
theorem verify_error_oracle_counterexample :
    VerifyCodeRun 200 [azureRow] "alice@calvin.edu" "111111" =
      (.badRequestMsg "Verification code has expired", [azureRow]) ∧
    VerifyCodeRun 50 [azureRow] "alice@calvin.edu" "222222" =
      (.badRequestMsg "Invalid verification code", [azureRow]) ∧
    VerifyCodeRun 50 [] "alice@calvin.edu" "111111" =
      (.badRequestMsg "No verification code found for this email",
       ([] : List VerificationCodeRow)) ∧
    ("Verification code has expired" : String) ≠
      "Invalid verification code" ∧
    ("Verification code has expired" : String) ≠
      "No verification code found for this email" ∧
    ("Invalid verification code" : String) ≠
      "No verification code found for this email" := by
  decide

theorem verify_fails_generic (now : Nat) (s : List User)
    (email code : String) (hemail : email ≠ "") (hcode : code ≠ "")
    (hnomatch : ∀ u ∈ s, verifyMatch now email code u = false) :
    verifyHttpResponse (verifyEmailCode now s email code).1 =
      (400, "Invalid or expired verification code") := by
  have hnone : verifySelect now s email code = none := by
    unfold verifySelect
    rw [List.find?_eq_none]
    intro u hu
    simp [hnomatch u hu]
  unfold verifyEmailCode
  rw [if_neg (by rintro (h | h); exacts [hemail h, hcode h]), hnone]
  rfl

/-- C9 (amended): in the pg-promise lineage the property does hold — a
call failing because every stored code for the email differs from the
submitted one, a call failing because every stored expiry for the email
has passed, and a call failing because no code is stored for the email
all produce the identical HTTP response, the single generic
(400, invalid-or-expired) payload. -/
theorem verify_error_indistinguishable
    (now1 now2 now3 : Nat) (s1 s2 s3 : List User)
    (e1 e2 e3 c1 c2 c3 : String)
    (he1 : e1 ≠ "") (hc1 : c1 ≠ "") (he2 : e2 ≠ "") (hc2 : c2 ≠ "")
    (he3 : e3 ≠ "") (hc3 : c3 ≠ "")
    (hwrong : ∀ u ∈ s1, u.email = e1 → u.verification_token ≠ some c1)
    (hexpired : ∀ u ∈ s2, u.email = e2 →
      ∀ t, u.token_expires_at = some t → t ≤ now2)
    (hnocode : ∀ u ∈ s3, u.email = e3 → u.verification_token = none) :
    verifyHttpResponse (verifyEmailCode now1 s1 e1 c1).1 =
      (400, "Invalid or expired verification code") ∧
    verifyHttpResponse (verifyEmailCode now2 s2 e2 c2).1 =
      (400, "Invalid or expired verification code") ∧
    verifyHttpResponse (verifyEmailCode now3 s3 e3 c3).1 =
      (400, "Invalid or expired verification code") := by
  refine ⟨?_, ?_, ?_⟩
  · apply verify_fails_generic now1 s1 e1 c1 he1 hc1
    intro u hu
    unfold verifyMatch
    by_cases he : u.email = e1
    · have ht := hwrong u hu he
      simp [ht]
    · simp [he]
  · apply verify_fails_generic now2 s2 e2 c2 he2 hc2
    intro u hu
    unfold verifyMatch
    by_cases he : u.email = e2
    · cases hexp : u.token_expires_at with
      | none => simp
      | some t =>
        have := hexpired u hu he t hexp
        simp [Nat.not_lt.mpr this]
    · simp [he]
  · apply verify_fails_generic now3 s3 e3 c3 he3 hc3
    intro u hu
    unfold verifyMatch
    by_cases he : u.email = e3
    · have ht := hnocode u hu he
      simp [ht]
    · simp [he]

/-- Witness for C9 (amended): a wrong-code call, an expired-code call and
a no-code call against concrete stores all answer exactly
(400, invalid-or-expired). -/
theorem verify_error_indistinguishable_witness :
    verifyHttpResponse
      (verifyEmailCode 0 [aliceUnverified] "alice@calvin.edu" "999999").1 =
        (400, "Invalid or expired verification code") ∧
    verifyHttpResponse
      (verifyEmailCode 900 [aliceUnverified] "alice@calvin.edu"
        "111111").1 = (400, "Invalid or expired verification code") ∧
    verifyHttpResponse
      (verifyEmailCode 0 [aliceNoCode] "alice@calvin.edu" "111111").1 =
        (400, "Invalid or expired verification code") :=
  verify_error_indistinguishable 0 900 0 [aliceUnverified]
    [aliceUnverified] [aliceNoCode] "alice@calvin.edu" "alice@calvin.edu"
    "alice@calvin.edu" "999999" "111111" "111111" (by decide) (by decide)
    (by decide) (by decide) (by decide) (by decide) (by decide) (by decide)
    (by decide)
